import Mathlib

/-!
Shallow embedding of `src/server.js`: the connection-role classification,
bounded TTL-expiring buffering, and fanout broadcast engine of the relay
server.  Connections are identified by opaque numeric handles; JS `Map`
and `Set` (which iterate in insertion order) are modelled as
insertion-ordered association lists and lists with unique members.
Each event-loop callback of the server (connection open, inbound message,
classification timer, close, buffer sweep, scheduled flush task) is one
atomic step of the `step` function; it returns the successor state, the
list of frames sent during the callback, and the list of timer tasks the
callback scheduled (with their delays in milliseconds).
-/

namespace Relay

/-- Opaque handle for one live transport session (one `ws` object). -/
abbrev ConnId := Nat

/-- The fields of `ws._socket` the server reads: `remoteAddress` and
`remotePort`, each possibly absent. -/
structure SockInfo where
  remoteAddress : Option String
  remotePort : Option Nat
deriving Repr, DecidableEq

/-- A value of the `senders` map: id and addr of a registered sender. -/
structure SenderInfo where
  id : String
  addr : String
deriving Repr, DecidableEq

/-- An entry of `screenshotBuffer`: data, senderId and timestamp
(the stored object also carries the literal type tag, which is constant). -/
structure ShotEntry where
  data : String
  senderId : Option String
  timestamp : Nat
deriving Repr, DecidableEq

/-- An entry of `codeBuffer`: data and timestamp. -/
structure CodeEntry where
  data : String
  timestamp : Nat
deriving Repr, DecidableEq

/-- Per-connection flags the server keeps on the `ws` object:
`ws._isBrowser`, whether `ws._registerTimer` is still pending,
whether `ws.readyState === 1` (OPEN), and `ws._socket`. -/
structure ConnInfo where
  isBrowser : Bool
  timerActive : Bool
  readyOpen : Bool
  sock : Option SockInfo
deriving Repr, DecidableEq

/-- Entire mutable state of the engine: per-connection records, the
`senders` map, the `browserClients` set, and the two bounded buffers. -/
structure ServerState where
  conns : List (ConnId × ConnInfo)
  senders : List (ConnId × SenderInfo)
  browsers : List ConnId
  screenshotBuffer : List ShotEntry
  codeBuffer : List CodeEntry
deriving Repr, DecidableEq

/-- `const MAX_BUFFER_SIZE = 100`. -/
def MAX_BUFFER_SIZE : Nat := 100

/-- `const MESSAGE_TTL_MS = 3 * 60 * 60 * 1000` (3 hours). -/
def MESSAGE_TTL_MS : Nat := 3 * 60 * 60 * 1000

/-- The sweep interval: `setInterval(cleanExpiredBuffers, 10 * 60 * 1000)`. -/
def CLEAN_INTERVAL_MS : Nat := 10 * 60 * 1000

/-- Outbound frames the server produces. -/
inductive OutMsg
  /-- Frame of kind sender_connected with id and addr. -/
  | senderConnected (id addr : String)
  /-- Frame of kind sender_disconnected with id and addr. -/
  | senderDisconnected (id addr : String)
  /-- Live screenshot forward: data plus originating senderId. -/
  | screenshot (data : String) (senderId : Option String)
  /-- A buffered screenshot entry sent during the paced flush
  (the JSON of the stored entry, timestamp field included). -/
  | bufferedShot (e : ShotEntry)
  /-- Relay of the raw inbound frame of a consumer command. -/
  | codeRaw (raw : String)
  /-- A code frame rebuilt from a `codeBuffer` entry during the flush. -/
  | codeFlushed (data : String)
  /-- Frame of kind current_senders carrying the sender snapshot. -/
  | currentSenders (snapshot : List SenderInfo)
  /-- Frame of kind no_senders. -/
  | noSenders
deriving Repr, DecidableEq

/-- One frame sent to one connection: destination and payload. -/
structure Send where
  dst : ConnId
  msg : OutMsg
deriving Repr, DecidableEq

/-- Timer tasks the register_browser handler and the settle callback create. -/
inductive Task
  /-- The 200 ms settle timer scheduled after the current_senders reply. -/
  | settleFlush (c : ConnId)
  /-- One staggered send of a buffered screenshot entry. -/
  | pacedSend (c : ConnId) (e : ShotEntry)
  /-- The trailing timer that clears `screenshotBuffer`. -/
  | clearShots
deriving Repr, DecidableEq

/-- A scheduled task with its delay in milliseconds, relative to the
moment the scheduling callback ran. -/
structure Sched where
  delay : Nat
  task : Task
deriving Repr, DecidableEq

/-- Record of a connection the engine has never seen (the code never reads
flags of such a connection; `readyOpen := false` makes sends to it no-ops). -/
def defaultConnInfo : ConnInfo := ⟨false, false, false, none⟩

/-- JS `Map.get`: the value stored under key `c`, if any. -/
def alGet {β : Type} (l : List (ConnId × β)) (c : ConnId) : Option β :=
  match l with
  | [] => none
  | p :: t => if p.1 = c then some p.2 else alGet t c

/-- JS `Set.has`. -/
def inSet (l : List ConnId) (c : ConnId) : Bool :=
  match l with
  | [] => false
  | x :: t => if x = c then true else inSet t c

/-- The flags currently stored for connection `c`. -/
def connInfo (s : ServerState) (c : ConnId) : ConnInfo :=
  (alGet s.conns c).getD defaultConnInfo

/-- `ws.readyState === 1` for connection `c`. -/
def connOpen (s : ServerState) (c : ConnId) : Bool :=
  (connInfo s c).readyOpen

/-- JS `Map.set`: replace in place when the key is present (keeping its
position in iteration order), append otherwise. -/
def alSet {β : Type} (l : List (ConnId × β)) (c : ConnId) (v : β) :
    List (ConnId × β) :=
  if (alGet l c).isSome then
    l.map (fun p => if p.1 = c then (c, v) else p)
  else l ++ [(c, v)]

/-- JS `Map.delete`: drop every entry stored under key `c`. -/
def alErase {β : Type} (l : List (ConnId × β)) (c : ConnId) :
    List (ConnId × β) :=
  match l with
  | [] => []
  | p :: t => if p.1 = c then alErase t c else p :: alErase t c

/-- JS `Set.add`: no-op when already a member, append otherwise. -/
def addSet (l : List ConnId) (c : ConnId) : List ConnId :=
  if inSet l c then l else l ++ [c]

/-- JS `Set.delete`. -/
def delSet (l : List ConnId) (c : ConnId) : List ConnId :=
  match l with
  | [] => []
  | x :: t => if x = c then delSet t c else x :: delSet t c

/-- Store updated flags for connection `c`. -/
def setConn (s : ServerState) (c : ConnId) (v : ConnInfo) : ServerState :=
  { s with conns := alSet s.conns c v }

/-- The addr string computed at sender registration:
`(ws._socket && (remoteAddress || remotePort))` selects the composite
form, with fallbacks `'unknown'` and `'0'` per field; otherwise the
literal `'unknown'`. -/
def mkAddr : Option SockInfo → String
  | none => "unknown"
  | some k =>
    if k.remoteAddress.isSome || k.remotePort.isSome then
      k.remoteAddress.getD "unknown" ++ ":" ++ toString (k.remotePort.getD 0)
    else "unknown"

/-- The generated sender id: time-based token plus random suffix. -/
def mkSenderId (now : Nat) (rnd : String) : String :=
  "sender-" ++ toString now ++ "-" ++ rnd

/-- `broadcastToBrowsers`: send the payload to every member of
`browserClients` whose `readyState` is OPEN. -/
def broadcastToBrowsers (s : ServerState) (m : OutMsg) : List Send :=
  (s.browsers.filter (fun c => connOpen s c)).map (fun c => ⟨c, m⟩)

/-- The shared sender-registration block (used by the timer callback and
by the screenshot branch): compute addr and id, insert into `senders`,
broadcast sender_connected to the browsers. -/
def autoRegister (s : ServerState) (c : ConnId) (now : Nat) (rnd : String) :
    ServerState × List Send :=
  let addr := mkAddr (connInfo s c).sock
  let id := mkSenderId now rnd
  let s1 := { s with senders := alSet s.senders c ⟨id, addr⟩ }
  (s1, broadcastToBrowsers s1 (.senderConnected id addr))

/-- Bounded insert into `screenshotBuffer`: shift the oldest entry out
when the buffer already holds `MAX_BUFFER_SIZE` entries, then push. -/
def pushShot (buf : List ShotEntry) (e : ShotEntry) : List ShotEntry :=
  (if MAX_BUFFER_SIZE ≤ buf.length then buf.drop 1 else buf) ++ [e]

/-- Bounded insert into `codeBuffer`, same discipline. -/
def pushCode (buf : List CodeEntry) (e : CodeEntry) : List CodeEntry :=
  (if MAX_BUFFER_SIZE ≤ buf.length then buf.drop 1 else buf) ++ [e]

/-- The inner staggered sends of the settle callback: entry at position
`idx` of the snapshot is scheduled at delay `idx * 50` ms. -/
def pacedTasksFrom (c : ConnId) (i : Nat) : List ShotEntry → List Sched
  | [] => []
  | e :: rest => ⟨50 * i, .pacedSend c e⟩ :: pacedTasksFrom c (i + 1) rest

/-- The settle callback (the 200 ms timer body): snapshot the current
`screenshotBuffer`, schedule one paced send per entry plus the trailing
clear at `length * 50 + 100` ms. -/
def settleFire (s : ServerState) (c : ConnId) : List Sched :=
  pacedTasksFrom c 0 s.screenshotBuffer ++
    [⟨50 * s.screenshotBuffer.length + 100, .clearShots⟩]

/-- Execute one scheduled task at its fire time: the settle timer only
schedules further tasks; a paced send checks `readyState` at fire time;
the trailing timer clears the buffer unconditionally. -/
def runTask (s : ServerState) (t : Task) :
    ServerState × List Send × List Sched :=
  match t with
  | .settleFlush c => (s, [], settleFire s c)
  | .pacedSend c e =>
    (s, if connOpen s c then [⟨c, .bufferedShot e⟩] else [], [])
  | .clearShots => ({ s with screenshotBuffer := [] }, [], [])

/-- External stimuli and timer firings, each one event-loop callback.
Where the code reads `Date.now()` or `Math.random()` the event carries
the value read. -/
inductive Event
  /-- A new connection is accepted (the connection handler body). -/
  | connect (c : ConnId) (sock : Option SockInfo)
  /-- The 800 ms classification timer of `c` fires (only possible while
  it has not been cleared). -/
  | timerFire (c : ConnId) (now : Nat) (rnd : String)
  /-- An inbound frame of type screenshot. -/
  | screenshot (c : ConnId) (d : String) (now : Nat) (rnd : String)
  /-- An inbound frame of type code; `raw` is the raw frame text. -/
  | code (c : ConnId) (raw d : String) (now : Nat)
  /-- An inbound frame of type register_browser. -/
  | registerBrowser (c : ConnId)
  /-- The close handler of `c` runs. -/
  | close (c : ConnId)
  /-- `cleanExpiredBuffers` runs. -/
  | sweep (now : Nat)
  /-- A previously scheduled flush task fires. -/
  | fire (t : Task)
deriving Repr, DecidableEq

/-- One atomic event-loop callback of the server. -/
def step (s : ServerState) (e : Event) :
    ServerState × List Send × List Sched :=
  match e with
  | .connect c sock =>
    (setConn s c ⟨false, true, true, sock⟩, [], [])
  | .timerFire c now rnd =>
    let i := connInfo s c
    if i.timerActive then
      let s0 := setConn s c { i with timerActive := false }
      if !i.isBrowser && !(alGet s0.senders c).isSome then
        let r := autoRegister s0 c now rnd
        let flush :=
          if connOpen r.1 c then
            r.1.codeBuffer.map (fun m => Send.mk c (.codeFlushed m.data))
          else []
        ({ r.1 with codeBuffer := [] }, r.2 ++ flush, [])
      else (s0, [], [])
    else (s, [], [])
  | .screenshot c d now rnd =>
    let pre :=
      if (alGet s.senders c).isSome then (s, ([] : List Send))
      else autoRegister s c now rnd
    let s1 := pre.1
    let sid := (alGet s1.senders c).map (·.id)
    if s1.browsers.isEmpty then
      ({ s1 with screenshotBuffer := pushShot s1.screenshotBuffer ⟨d, sid, now⟩ },
       pre.2, [])
    else
      (s1, pre.2 ++ broadcastToBrowsers s1 (.screenshot d sid), [])
  | .code c raw d now =>
    if s.senders.isEmpty then
      ({ s with codeBuffer := pushCode s.codeBuffer ⟨d, now⟩ },
       if connOpen s c then [⟨c, .noSenders⟩] else [], [])
    else
      (s,
       (s.senders.filter (fun p => p.1 != c && connOpen s p.1)).map
         (fun p => Send.mk p.1 (.codeRaw raw)),
       [])
  | .registerBrowser c =>
    let i := connInfo s c
    let s1 := setConn s c { i with isBrowser := true, timerActive := false }
    let s2 := { s1 with browsers := addSet s1.browsers c }
    let cleanup :=
      match alGet s2.senders c with
      | some info =>
        let s3 := { s2 with senders := alErase s2.senders c }
        (s3, broadcastToBrowsers s3 (.senderDisconnected info.id info.addr))
      | none => (s2, ([] : List Send))
    let s3 := cleanup.1
    let current := s3.senders.map (·.2)
    if connOpen s3 c then
      (s3, cleanup.2 ++ [⟨c, .currentSenders current⟩],
       if s3.screenshotBuffer.isEmpty then []
       else [⟨200, .settleFlush c⟩])
    else (s3, cleanup.2, [])
  | .close c =>
    let i := connInfo s c
    let s1 := setConn s c { i with timerActive := false, readyOpen := false }
    let cleanup :=
      match alGet s1.senders c with
      | some info =>
        let s2 := { s1 with senders := alErase s1.senders c }
        (s2, broadcastToBrowsers s2 (.senderDisconnected info.id info.addr))
      | none => (s1, ([] : List Send))
    ({ cleanup.1 with browsers := delSet cleanup.1.browsers c }, cleanup.2, [])
  | .sweep now =>
    ({ s with
       screenshotBuffer :=
         s.screenshotBuffer.filter (fun m => decide (now - m.timestamp < MESSAGE_TTL_MS)),
       codeBuffer :=
         s.codeBuffer.filter (fun m => decide (now - m.timestamp < MESSAGE_TTL_MS)) },
     [], [])
  | .fire t => runTask s t

/-- Run a list of events, collecting the sends of every step. -/
def runTrace (s : ServerState) : List Event → ServerState × List Send
  | [] => (s, [])
  | e :: es =>
    let r := step s e
    let rest := runTrace r.1 es
    (rest.1, r.2.1 ++ rest.2)

/-- Empty engine state at process start. -/
def init : ServerState := ⟨[], [], [], [], []⟩

/-! ### Helper lemmas about the registry primitives -/

theorem alGet_replace {β : Type} (t : List (ConnId × β)) (c d : ConnId) (v : β) :
    alGet (t.map (fun p => if p.1 = c then (c, v) else p)) d =
      if d = c then (alGet t c).map (fun _ => v) else alGet t d := by
  induction t with
  | nil => by_cases hd : d = c <;> simp [alGet, hd]
  | cons p t ih =>
    obtain ⟨k, b⟩ := p
    by_cases hkc : k = c
    · by_cases hdc : d = c
      · simp [alGet, hkc, hdc]
      · have hcd : ¬ c = d := fun h => hdc h.symm
        have hkd : ¬ k = d := fun h => hdc (h.symm.trans hkc)
        simp [alGet, hkc, hdc, hcd, hkd, ih]
    · by_cases hkd : k = d
      · have hdc : ¬ d = c := fun h => hkc (hkd.trans h)
        simp [alGet, hkc, hkd, hdc]
      · simp [alGet, hkc, hkd, ih]

theorem alGet_append_single {β : Type} (l : List (ConnId × β)) (c d : ConnId)
    (v : β) (h : alGet l c = none) :
    alGet (l ++ [(c, v)]) d = if d = c then some v else alGet l d := by
  induction l with
  | nil =>
    by_cases hd : d = c
    · simp [alGet, hd]
    · have hcd : ¬ c = d := fun h => hd h.symm
      simp [alGet, hd, hcd]
  | cons p t ih =>
    obtain ⟨k, b⟩ := p
    simp only [alGet] at h
    by_cases hkc : k = c
    · simp [hkc] at h
    · simp only [hkc, if_false] at h
      by_cases hkd : k = d
      · have hdc : ¬ d = c := fun hd => hkc (hkd.trans hd)
        simp [alGet, hkd, hdc]
      · simp [alGet, hkd, ih h]

theorem alGet_alSet {β : Type} (l : List (ConnId × β)) (c d : ConnId) (v : β) :
    alGet (alSet l c v) d = if d = c then some v else alGet l d := by
  unfold alSet
  by_cases hc : (alGet l c).isSome
  · obtain ⟨b, hb⟩ := Option.isSome_iff_exists.mp hc
    simp [hc, alGet_replace, hb]
  · have hn : alGet l c = none := Option.not_isSome_iff_eq_none.mp hc
    simp [hc, alGet_append_single l c d v hn]

theorem alGet_alErase {β : Type} (l : List (ConnId × β)) (c d : ConnId) :
    alGet (alErase l c) d = if d = c then none else alGet l d := by
  induction l with
  | nil => by_cases hd : d = c <;> simp [alGet, alErase, hd]
  | cons p t ih =>
    obtain ⟨k, b⟩ := p
    by_cases hkc : k = c
    · by_cases hdc : d = c
      · simp only [alErase, hkc, if_pos rfl]
        simpa [hdc] using ih
      · have hkd : ¬ k = d := fun h => hdc (h.symm.trans hkc)
        have hcd : ¬ c = d := fun h => hdc h.symm
        simp [alErase, alGet, hkc, hdc, hkd, hcd, ih]
    · by_cases hkd : k = d
      · have hdc : ¬ d = c := fun h => hkc (hkd.trans h)
        simp [alErase, alGet, hkc, hkd, hdc]
      · simp [alErase, alGet, hkc, hkd, ih]

theorem inSet_append_single (l : List ConnId) (c d : ConnId) :
    inSet (l ++ [c]) d = (inSet l d || d == c) := by
  induction l with
  | nil =>
    by_cases hdc : d = c
    · simp [inSet, hdc]
    · have hcd : ¬ c = d := fun h => hdc h.symm
      have hb : (d == c) = false := beq_eq_false_iff_ne.mpr hdc
      simp [inSet, hcd, hb]
  | cons x t ih =>
    by_cases hxd : x = d <;> simp [inSet, hxd, ih]

theorem inSet_addSet (l : List ConnId) (c d : ConnId) :
    inSet (addSet l c) d = (inSet l d || d == c) := by
  unfold addSet
  by_cases hc : inSet l c
  · by_cases hdc : d = c
    · subst hdc; simp [hc]
    · have hb : (d == c) = false := beq_eq_false_iff_ne.mpr hdc
      simp [hc, hb]
  · simp [hc, inSet_append_single]

theorem inSet_delSet (l : List ConnId) (c d : ConnId) :
    inSet (delSet l c) d = (inSet l d && !(d == c)) := by
  induction l with
  | nil => simp [inSet, delSet]
  | cons x t ih =>
    by_cases hxc : x = c
    · by_cases hxd : x = d
      · have hdc : d = c := hxd.symm.trans hxc
        have hb : (d == c) = true := beq_iff_eq.mpr hdc
        simp [delSet, inSet, hxc, hxd, hb, ih]
      · have hcd : ¬ c = d := fun h => hxd (hxc.trans h)
        simp [delSet, inSet, hxc, hxd, hcd, ih]
    · by_cases hxd : x = d
      · have hdc : ¬ d = c := fun h => hxc (hxd.trans h)
        have hb : (d == c) = false := beq_eq_false_iff_ne.mpr hdc
        simp [delSet, inSet, hxc, hxd, hdc, hb]
      · simp [delSet, inSet, hxc, hxd, ih]

theorem connInfo_setConn (s : ServerState) (c d : ConnId) (v : ConnInfo) :
    connInfo (setConn s c v) d = if d = c then v else connInfo s d := by
  unfold connInfo setConn
  simp only [alGet_alSet]
  by_cases hd : d = c <;> simp [hd]

theorem connOpen_setConn (s : ServerState) (c d : ConnId) (v : ConnInfo) :
    connOpen (setConn s c v) d = if d = c then v.readyOpen else connOpen s d := by
  unfold connOpen
  rw [connInfo_setConn]
  by_cases hd : d = c <;> simp [hd]

theorem mem_broadcastToBrowsers {s : ServerState} {p : OutMsg} {m : Send}
    (h : m ∈ broadcastToBrowsers s p) : m.msg = p := by
  unfold broadcastToBrowsers at h
  simp only [List.mem_map] at h
  obtain ⟨c, _, rfl⟩ := h
  rfl

theorem broadcast_congr (s t : ServerState) (m : OutMsg)
    (hb : s.browsers = t.browsers)
    (hc : ∀ c, connOpen s c = connOpen t c) :
    broadcastToBrowsers s m = broadcastToBrowsers t m := by
  unfold broadcastToBrowsers
  rw [hb]
  congr 1
  exact List.filter_congr (fun x _ => hc x)

theorem autoRegister_state (s : ServerState) (c : ConnId) (now : Nat)
    (rnd : String) :
    (autoRegister s c now rnd).1 =
      { s with senders :=
          alSet s.senders c ⟨mkSenderId now rnd, mkAddr (connInfo s c).sock⟩ } :=
  rfl

theorem setConn_senders (s : ServerState) (c : ConnId) (v : ConnInfo) :
    (setConn s c v).senders = s.senders := rfl

theorem setConn_browsers (s : ServerState) (c : ConnId) (v : ConnInfo) :
    (setConn s c v).browsers = s.browsers := rfl

theorem setConn_codeBuffer (s : ServerState) (c : ConnId) (v : ConnInfo) :
    (setConn s c v).codeBuffer = s.codeBuffer := rfl

theorem autoRegister_fst_browsers (s : ServerState) (c : ConnId) (now : Nat)
    (rnd : String) : (autoRegister s c now rnd).1.browsers = s.browsers := rfl

theorem autoRegister_fst_codeBuffer (s : ServerState) (c : ConnId) (now : Nat)
    (rnd : String) : (autoRegister s c now rnd).1.codeBuffer = s.codeBuffer := rfl

theorem autoRegister_fst_senders (s : ServerState) (c : ConnId) (now : Nat)
    (rnd : String) :
    (autoRegister s c now rnd).1.senders =
      alSet s.senders c ⟨mkSenderId now rnd, mkAddr (connInfo s c).sock⟩ := rfl

theorem connOpen_autoRegister (s : ServerState) (c x : ConnId) (now : Nat)
    (rnd : String) :
    connOpen (autoRegister s c now rnd).1 x = connOpen s x := rfl

theorem broadcast_autoRegister (s : ServerState) (c : ConnId) (now : Nat)
    (rnd : String) (m : OutMsg) :
    broadcastToBrowsers (autoRegister s c now rnd).1 m =
      broadcastToBrowsers s m := rfl

theorem alSet_of_none {β : Type} {l : List (ConnId × β)} {c : ConnId}
    (v : β) (h : alGet l c = none) : alSet l c v = l ++ [(c, v)] := by
  unfold alSet
  simp [h]

theorem broadcast_setConn (s : ServerState) (c : ConnId) (v : ConnInfo)
    (m : OutMsg) (h : v.readyOpen = (connInfo s c).readyOpen) :
    broadcastToBrowsers (setConn s c v) m = broadcastToBrowsers s m := by
  apply broadcast_congr
  · rfl
  · intro x
    rw [connOpen_setConn]
    by_cases hx : x = c
    · subst hx
      simp [h, connOpen]
    · simp [hx]

theorem autoRegister_outs (s : ServerState) (c : ConnId) (now : Nat)
    (rnd : String) :
    (autoRegister s c now rnd).2 =
      broadcastToBrowsers (autoRegister s c now rnd).1
        (.senderConnected (mkSenderId now rnd) (mkAddr (connInfo s c).sock)) :=
  rfl

/-! ### Claim theorems -/

/-- C9: when a consumer command of type code arrives while the sender
registry is non-empty but its only member is the originating connection
itself, the command is forwarded to zero recipients, nothing is appended
to the command buffer, and no no_senders reply is sent: the step leaves
the state unchanged and emits nothing. -/
theorem code_from_only_sender_dropped (s : ServerState) (c : ConnId)
    (info : SenderInfo) (raw d : String) (now : Nat)
    (h : s.senders = [(c, info)]) :
    step s (.code c raw d now) = (s, [], []) := by
  simp [step, h]

/-- Witness for C9 at a concrete state with one sender, itself the origin. -/
theorem code_from_only_sender_dropped_witness :
    step (⟨[(0, ⟨false, false, true, none⟩)], [(0, ⟨"i", "a"⟩)], [], [], []⟩ :
        ServerState) (.code 0 "cmd" "x" 5) =
      ((⟨[(0, ⟨false, false, true, none⟩)], [(0, ⟨"i", "a"⟩)], [], [], []⟩ :
        ServerState), [], []) :=
  code_from_only_sender_dropped _ 0 ⟨"i", "a"⟩ "cmd" "x" 5 rfl

/-- C10: a connection classified as a Sender because its first producer
payload arrived (before the classification timer fired) does not receive
the command buffer at classification time: the code branch for screenshot
leaves `codeBuffer` unchanged, registers the connection as a sender, and
emits no code frame of either form. -/
theorem screenshot_classification_no_code_flush (s : ServerState) (c : ConnId)
    (d : String) (now : Nat) (rnd : String)
    (h : (alGet s.senders c).isSome = false) :
    (step s (.screenshot c d now rnd)).1.codeBuffer = s.codeBuffer ∧
    (alGet (step s (.screenshot c d now rnd)).1.senders c).isSome = true ∧
    ∀ m ∈ (step s (.screenshot c d now rnd)).2.1,
      (∀ x, m.msg ≠ .codeFlushed x) ∧ (∀ x, m.msg ≠ .codeRaw x) := by
  unfold step
  simp only [h, Bool.false_eq_true, if_false]
  by_cases hb : (autoRegister s c now rnd).1.browsers.isEmpty
  · simp only [hb, if_true]
    refine ⟨rfl, ?_, ?_⟩
    · rw [autoRegister_state]
      simp [alGet_alSet]
    · intro m hm
      rw [autoRegister_outs] at hm
      have := mem_broadcastToBrowsers hm
      rw [this]
      simp
  · simp only [hb, Bool.false_eq_true, if_false]
    refine ⟨rfl, ?_, ?_⟩
    · rw [autoRegister_state]
      simp [alGet_alSet]
    · intro m hm
      rw [List.mem_append] at hm
      rcases hm with hm | hm
      · rw [autoRegister_outs] at hm
        have := mem_broadcastToBrowsers hm
        rw [this]
        simp
      · have := mem_broadcastToBrowsers hm
        rw [this]
        simp

/-- Witness for C10 at a concrete state with empty registries. -/
theorem screenshot_classification_no_code_flush_witness :
    (step (⟨[(0, ⟨false, true, true, none⟩)], [], [], [], [⟨"c1", 3⟩]⟩ :
        ServerState) (.screenshot 0 "img" 9 "zz")).1.codeBuffer = [⟨"c1", 3⟩] ∧
    (alGet (step (⟨[(0, ⟨false, true, true, none⟩)], [], [], [], [⟨"c1", 3⟩]⟩ :
        ServerState) (.screenshot 0 "img" 9 "zz")).1.senders 0).isSome = true ∧
    ∀ m ∈ (step (⟨[(0, ⟨false, true, true, none⟩)], [], [], [], [⟨"c1", 3⟩]⟩ :
        ServerState) (.screenshot 0 "img" 9 "zz")).2.1,
      (∀ x, m.msg ≠ .codeFlushed x) ∧ (∀ x, m.msg ≠ .codeRaw x) :=
  screenshot_classification_no_code_flush _ 0 "img" 9 "zz" rfl

/-- C6: when the deferred classification timer fires for a connection that
is still unclassified (browser flag unset, not in the sender registry),
the connection is appended to the sender registry with the generated
identity (and the literal unknown address when no transport peer address
is available), a sender_connected notification is broadcast to the current
browsers, the whole command buffer is sent to this connection in insertion
order, and the command buffer is cleared. -/
theorem timer_autoclassify (s : ServerState) (c : ConnId) (now : Nat)
    (rnd : String)
    (ht : (connInfo s c).timerActive = true)
    (hbr : (connInfo s c).isBrowser = false)
    (hs : alGet s.senders c = none)
    (hopen : connOpen s c = true) :
    (step s (.timerFire c now rnd)).1.senders =
      s.senders ++ [(c, ⟨mkSenderId now rnd, mkAddr (connInfo s c).sock⟩)] ∧
    (step s (.timerFire c now rnd)).1.codeBuffer = [] ∧
    (step s (.timerFire c now rnd)).1.browsers = s.browsers ∧
    (step s (.timerFire c now rnd)).2.1 =
      broadcastToBrowsers s
        (.senderConnected (mkSenderId now rnd) (mkAddr (connInfo s c).sock)) ++
      s.codeBuffer.map (fun m => Send.mk c (.codeFlushed m.data)) ∧
    ((connInfo s c).sock = none → mkAddr (connInfo s c).sock = "unknown") := by
  have hopen' : (connInfo s c).readyOpen = true := hopen
  unfold step
  simp only [ht, eq_self_iff_true, if_true, setConn_senders, hbr, hs,
    Option.isSome_none, Bool.not_false, Bool.and_self, connOpen_autoRegister,
    connOpen_setConn, hopen']
  refine ⟨?_, trivial, ?_, ?_, ?_⟩
  · dsimp only
    rw [autoRegister_fst_senders, setConn_senders, connInfo_setConn]
    simp only [eq_self_iff_true, if_true]
    exact alSet_of_none _ hs
  · dsimp only
    rw [autoRegister_fst_browsers, setConn_browsers]
  · dsimp only
    rw [autoRegister_outs, broadcast_autoRegister, connInfo_setConn]
    simp only [eq_self_iff_true, if_true]
    rw [broadcast_setConn]
    · rfl
    · simp [hopen']
  · intro h
    rw [h]
    rfl

/-- Witness for C6 at a concrete state: one pending unclassified
connection, one buffered command, no browsers. -/
theorem timer_autoclassify_witness :
    (step (⟨[(0, ⟨false, true, true, none⟩)], [], [], [], [⟨"c1", 3⟩]⟩ :
        ServerState) (.timerFire 0 11 "qq")).1.senders =
      [(0, ⟨mkSenderId 11 "qq", mkAddr none⟩)] ∧
    (step (⟨[(0, ⟨false, true, true, none⟩)], [], [], [], [⟨"c1", 3⟩]⟩ :
        ServerState) (.timerFire 0 11 "qq")).1.codeBuffer = [] ∧
    (step (⟨[(0, ⟨false, true, true, none⟩)], [], [], [], [⟨"c1", 3⟩]⟩ :
        ServerState) (.timerFire 0 11 "qq")).2.1 =
      [Send.mk 0 (.codeFlushed "c1")] := by
  have h := timer_autoclassify
    (⟨[(0, ⟨false, true, true, none⟩)], [], [], [], [⟨"c1", 3⟩]⟩ : ServerState)
    0 11 "qq" rfl rfl rfl rfl
  exact ⟨h.1, h.2.1, by rw [h.2.2.2.1]; rfl⟩

/-- C7: an explicit register_browser on a connection currently holding a
sender identity cancels the pending classification timer, removes the
identity from the sender registry, broadcasts a sender_disconnected
notification carrying the former id and addr, adds the connection to the
browser set, and replies with a current_senders snapshot that no longer
contains the reverted identity. -/
theorem register_browser_reverts_sender (s : ServerState) (c : ConnId)
    (info : SenderInfo)
    (hsend : alGet s.senders c = some info)
    (hopen : connOpen s c = true) :
    (connInfo (step s (.registerBrowser c)).1 c).timerActive = false ∧
    (connInfo (step s (.registerBrowser c)).1 c).isBrowser = true ∧
    (step s (.registerBrowser c)).1.senders = alErase s.senders c ∧
    alGet (step s (.registerBrowser c)).1.senders c = none ∧
    inSet (step s (.registerBrowser c)).1.browsers c = true ∧
    (step s (.registerBrowser c)).2.1 =
      broadcastToBrowsers (step s (.registerBrowser c)).1
        (.senderDisconnected info.id info.addr) ++
      [⟨c, .currentSenders ((alErase s.senders c).map (·.2))⟩] := by
  have hopen2 : ((alGet s.conns c).getD defaultConnInfo).readyOpen = true := hopen
  unfold step
  simp only [setConn_senders, hsend]
  simp [connOpen, connInfo, setConn, alGet_alSet, alGet_alErase,
    inSet_addSet, hopen2]

/-- Witness for C7 at a concrete state where the origin is a sender. -/
theorem register_browser_reverts_sender_witness :
    (connInfo (step (⟨[(0, ⟨false, true, true, none⟩)], [(0, ⟨"i", "a"⟩)],
        [], [], []⟩ : ServerState) (.registerBrowser 0)).1 0).timerActive = false ∧
    (step (⟨[(0, ⟨false, true, true, none⟩)], [(0, ⟨"i", "a"⟩)],
        [], [], []⟩ : ServerState) (.registerBrowser 0)).1.senders = [] ∧
    inSet (step (⟨[(0, ⟨false, true, true, none⟩)], [(0, ⟨"i", "a"⟩)],
        [], [], []⟩ : ServerState) (.registerBrowser 0)).1.browsers 0 = true := by
  have h := register_browser_reverts_sender
    (⟨[(0, ⟨false, true, true, none⟩)], [(0, ⟨"i", "a"⟩)], [], [], []⟩ : ServerState)
    0 ⟨"i", "a"⟩ rfl rfl
  exact ⟨h.1, by rw [h.2.2.1]; rfl, h.2.2.2.2.1⟩

/-- C4: routing of a consumer command: with a non-empty sender registry the
raw frame goes to every registered sender other than the origin (all
assumed open) and the state, in particular the command buffer, is
untouched; with an empty registry exactly one entry is appended to the
command buffer (evicting the oldest entry first when full) and exactly
one no_senders reply goes to the origin. -/
theorem code_routing (s : ServerState) (c : ConnId) (raw d : String)
    (now : Nat)
    (hopen : connOpen s c = true)
    (hall : ∀ p ∈ s.senders, connOpen s p.1 = true) :
    (s.senders ≠ [] →
      (step s (.code c raw d now)).1 = s ∧
      (step s (.code c raw d now)).2.1 =
        (s.senders.filter (fun p => p.1 != c)).map
          (fun p => Send.mk p.1 (.codeRaw raw))) ∧
    (s.senders = [] →
      (step s (.code c raw d now)).1.codeBuffer =
        (if MAX_BUFFER_SIZE ≤ s.codeBuffer.length then s.codeBuffer.drop 1
         else s.codeBuffer) ++ [⟨d, now⟩] ∧
      (step s (.code c raw d now)).2.1 = [⟨c, .noSenders⟩]) := by
  constructor
  · intro hne
    have hempty : s.senders.isEmpty = false := by
      cases hsl : s.senders with
      | nil => exact absurd hsl hne
      | cons a t => rfl
    unfold step
    simp only [hempty, Bool.false_eq_true, if_false]
    refine ⟨trivial, ?_⟩
    congr 1
    apply List.filter_congr
    intro p hp
    rw [hall p hp]
    simp
  · intro hnil
    unfold step
    simp only [hnil, List.isEmpty_nil, if_true, hopen]
    constructor <;> trivial

/-- Witness for C4: both branches exercised at concrete states. -/
theorem code_routing_witness :
    ((step (⟨[(0, ⟨false, true, true, none⟩), (1, ⟨false, false, true, none⟩)],
        [(1, ⟨"i", "a"⟩)], [], [], []⟩ : ServerState) (.code 0 "raw" "x" 5)).2.1 =
      [Send.mk 1 (.codeRaw "raw")]) ∧
    ((step (⟨[(0, ⟨false, true, true, none⟩)], [], [], [], []⟩ : ServerState)
        (.code 0 "raw" "x" 5)).1.codeBuffer = [⟨"x", 5⟩] ∧
     (step (⟨[(0, ⟨false, true, true, none⟩)], [], [], [], []⟩ : ServerState)
        (.code 0 "raw" "x" 5)).2.1 = [⟨0, .noSenders⟩]) := by
  constructor
  · have h := code_routing
      (⟨[(0, ⟨false, true, true, none⟩), (1, ⟨false, false, true, none⟩)],
        [(1, ⟨"i", "a"⟩)], [], [], []⟩ : ServerState) 0 "raw" "x" 5 rfl
      (by intro p hp; simp at hp; subst hp; rfl)
    rw [(h.1 (by simp)).2]
    rfl
  · have h := code_routing
      (⟨[(0, ⟨false, true, true, none⟩)], [], [], [], []⟩ : ServerState)
      0 "raw" "x" 5 rfl (by intro p hp; simp at hp)
    have h2 := h.2 rfl
    exact ⟨by rw [h2.1]; rfl, h2.2⟩

/-! ### C3: bounded FIFO buffering of producer payloads -/

/-- The insert discipline of the bounded buffers on the data strings alone. -/
def pushD (l : List String) (d : String) : List String :=
  (if MAX_BUFFER_SIZE ≤ l.length then l.drop 1 else l) ++ [d]

theorem autoRegister_fst_shots (s : ServerState) (c : ConnId) (now : Nat)
    (rnd : String) :
    (autoRegister s c now rnd).1.screenshotBuffer = s.screenshotBuffer := rfl

theorem pushShot_map_data (buf : List ShotEntry) (e : ShotEntry) :
    (pushShot buf e).map (·.data) = pushD (buf.map (·.data)) e.data := by
  unfold pushShot pushD
  by_cases hfull : MAX_BUFFER_SIZE ≤ buf.length
  · have hfull2 : MAX_BUFFER_SIZE ≤ (buf.map (·.data)).length := by
      rw [List.length_map]; exact hfull
    rw [if_pos hfull, if_pos hfull2]
    simp
  · have hfull2 : ¬ MAX_BUFFER_SIZE ≤ (buf.map (·.data)).length := by
      rw [List.length_map]; exact hfull
    rw [if_neg hfull, if_neg hfull2]
    simp

theorem drop_one_append {α : Type} (l x : List α) (h : l ≠ []) :
    (l ++ x).drop 1 = l.drop 1 ++ x := by
  cases l with
  | nil => exact absurd rfl h
  | cons a t => simp

theorem foldD_eq (ds : List String) (l : List String)
    (h : l.length ≤ MAX_BUFFER_SIZE) :
    ds.foldl pushD l = (l ++ ds).drop (l.length + ds.length - MAX_BUFFER_SIZE) := by
  have hM : MAX_BUFFER_SIZE = 100 := rfl
  induction ds generalizing l with
  | nil =>
    simp only [List.foldl_nil, List.append_nil, List.length_nil, Nat.add_zero]
    rw [Nat.sub_eq_zero_of_le h, List.drop_zero]
  | cons d ds ih =>
    show ds.foldl pushD (pushD l d) = _
    by_cases hfull : MAX_BUFFER_SIZE ≤ l.length
    · have hlen : l.length = MAX_BUFFER_SIZE := le_antisymm h hfull
      have hne : l ≠ [] := by
        intro h0
        rw [h0] at hlen
        simp [MAX_BUFFER_SIZE] at hlen
      have hpd : pushD l d = l.drop 1 ++ [d] := by
        unfold pushD
        rw [if_pos hfull]
      have hplen : (pushD l d).length = MAX_BUFFER_SIZE := by
        rw [hpd]
        simp only [List.length_append, List.length_drop, List.length_cons,
          List.length_nil]
        omega
      rw [ih (pushD l d) (le_of_eq hplen), hplen, hpd]
      have h2 : MAX_BUFFER_SIZE + ds.length - MAX_BUFFER_SIZE = ds.length := by
        omega
      have h3 : l.length + (d :: ds).length - MAX_BUFFER_SIZE = 1 + ds.length := by
        simp only [List.length_cons]
        omega
      rw [h2, h3, List.append_assoc, List.singleton_append]
      rw [← List.drop_drop, drop_one_append l (d :: ds) hne]
    · have hpd : pushD l d = l ++ [d] := by
        unfold pushD
        rw [if_neg hfull]
      have hplen : (pushD l d).length ≤ MAX_BUFFER_SIZE := by
        rw [hpd]
        simp only [List.length_append, List.length_cons, List.length_nil]
        omega
      rw [ih (pushD l d) hplen, hpd]
      have h2 : (l ++ [d]).length + ds.length - MAX_BUFFER_SIZE =
          l.length + (d :: ds).length - MAX_BUFFER_SIZE := by
        simp only [List.length_append, List.length_cons, List.length_nil]
        omega
      rw [h2, List.append_assoc, List.singleton_append]

/-- One screenshot step taken while the browser set is empty: the browser
set stays empty and the buffered data evolve by the bounded push. -/
theorem step_screenshot_browsers_empty (s : ServerState) (c : ConnId)
    (d : String) (now : Nat) (rnd : String) (hb : s.browsers = []) :
    (step s (.screenshot c d now rnd)).1.browsers = [] ∧
    (step s (.screenshot c d now rnd)).1.screenshotBuffer.map (·.data) =
      pushD (s.screenshotBuffer.map (·.data)) d := by
  unfold step
  by_cases hreg : (alGet s.senders c).isSome
  · simp only [hreg, if_true, hb, List.isEmpty_nil]
    exact ⟨trivial, pushShot_map_data _ _⟩
  · simp only [hreg, Bool.false_eq_true, if_false, autoRegister_fst_browsers,
      hb, List.isEmpty_nil, if_true]
    refine ⟨trivial, ?_⟩
    show (pushShot (autoRegister s c now rnd).1.screenshotBuffer _).map (·.data) = _
    rw [autoRegister_fst_shots]
    exact pushShot_map_data _ _

/-- The events of a sequence of producer payloads: connection, data,
timestamp, random token per payload. -/
def shotEvents : List (ConnId × String × Nat × String) → List Event
  | [] => []
  | q :: qs => .screenshot q.1 q.2.1 q.2.2.1 q.2.2.2 :: shotEvents qs

theorem runTrace_shots (ps : List (ConnId × String × Nat × String))
    (s : ServerState) (hb : s.browsers = []) :
    (runTrace s (shotEvents ps)).1.browsers = [] ∧
    (runTrace s (shotEvents ps)).1.screenshotBuffer.map (·.data) =
      (ps.map (fun q => q.2.1)).foldl pushD (s.screenshotBuffer.map (·.data)) := by
  induction ps generalizing s with
  | nil => exact ⟨hb, rfl⟩
  | cons q qs ih =>
    have h1 := step_screenshot_browsers_empty s q.1 q.2.1 q.2.2.1 q.2.2.2 hb
    have h2 := ih (step s (.screenshot q.1 q.2.1 q.2.2.1 q.2.2.2)).1 h1.1
    refine ⟨h2.1, ?_⟩
    show (runTrace (step s (.screenshot q.1 q.2.1 q.2.2.1 q.2.2.2)).1
        (shotEvents qs)).1.screenshotBuffer.map (·.data) = _
    rw [h2.2, h1.2]
    rfl

/-- C3: for any sequence of producer payloads arriving while the browser
set is empty, the producer buffer ends with exactly the most recent
min(count, 100) payload data in arrival order (so its length is
min(count, 100)), and at capacity the push drops exactly the single
oldest entry before appending the new one. -/
theorem producer_buffering_fifo (ps : List (ConnId × String × Nat × String))
    (s : ServerState) (hb : s.browsers = []) (hbuf : s.screenshotBuffer = []) :
    (runTrace s (shotEvents ps)).1.screenshotBuffer.length =
      min ps.length MAX_BUFFER_SIZE ∧
    (runTrace s (shotEvents ps)).1.screenshotBuffer.map (·.data) =
      (ps.map (fun q => q.2.1)).drop (ps.length - MAX_BUFFER_SIZE) ∧
    (∀ (buf : List ShotEntry) (e : ShotEntry), buf.length = MAX_BUFFER_SIZE →
      pushShot buf e = buf.drop 1 ++ [e]) := by
  have h := runTrace_shots ps s hb
  have hdata := h.2
  rw [hbuf] at hdata
  simp only [List.map_nil] at hdata
  rw [foldD_eq _ _ (by simp)] at hdata
  simp only [List.nil_append, List.length_nil, Nat.zero_add,
    List.length_map] at hdata
  refine ⟨?_, hdata, ?_⟩
  · have hlen : ((runTrace s (shotEvents ps)).1.screenshotBuffer.map
        (·.data)).length = (runTrace s (shotEvents ps)).1.screenshotBuffer.length :=
      List.length_map _ _
    rw [← hlen, hdata, List.length_drop, List.length_map]
    omega
  · intro buf e hfull
    unfold pushShot
    rw [if_pos (le_of_eq hfull.symm)]

/-- Witness for C3: two payloads from one connection starting empty. -/
theorem producer_buffering_fifo_witness :
    (runTrace init (shotEvents [(0, "a", 1, "r"), (0, "b", 2, "r")])).1.screenshotBuffer.length =
      min 2 MAX_BUFFER_SIZE ∧
    (runTrace init (shotEvents [(0, "a", 1, "r"), (0, "b", 2, "r")])).1.screenshotBuffer.map
      (·.data) = ["a", "b"] := by
  have h := producer_buffering_fifo [(0, "a", 1, "r"), (0, "b", 2, "r")] init rfl rfl
  exact ⟨h.1, by rw [h.2.1]; rfl⟩

/-! ### C5: paced flush of buffered screenshots on browser registration -/

theorem pacedTasksFrom_length (c : ConnId) (j : Nat) (l : List ShotEntry) :
    (pacedTasksFrom c j l).length = l.length := by
  induction l generalizing j with
  | nil => rfl
  | cons e rest ih => simp [pacedTasksFrom, ih]

theorem pacedTasksFrom_getElem (c : ConnId) (j : Nat) (l : List ShotEntry)
    (i : Nat) :
    (pacedTasksFrom c j l)[i]? =
      (l[i]?).map (fun e => ⟨50 * (j + i), .pacedSend c e⟩) := by
  induction l generalizing j i with
  | nil => simp [pacedTasksFrom]
  | cons e rest ih =>
    cases i with
    | zero => simp [pacedTasksFrom]
    | succ n =>
      have harith : j + 1 + n = j + (n + 1) := by omega
      simp only [pacedTasksFrom, List.getElem?_cons_succ, ih, harith]

/-- C5: if a connection (with OPEN transport) registers as a browser while
the producer buffer holds the entries ps (nonempty), then the handler ends
its sends with the current_senders reply and schedules exactly the 200 ms
settle task; firing the settle task schedules one paced send per buffered
entry, in buffer order, at 50 ms per index, each carrying the stored entry
(hence its original senderId), followed by the trailing clear task at
50·k + 100 ms; a paced send to an open connection emits exactly that
buffered entry, and the clear task empties the producer buffer. -/
theorem register_browser_paced_flush (s : ServerState) (c : ConnId)
    (ps : List ShotEntry) (hbuf : s.screenshotBuffer = ps) (hne : ps ≠ [])
    (hopen : connOpen s c = true) :
    (step s (.registerBrowser c)).2.2 = [⟨200, .settleFlush c⟩] ∧
    (step s (.registerBrowser c)).2.1.getLast? =
      some ⟨c, .currentSenders ((step s (.registerBrowser c)).1.senders.map (·.2))⟩ ∧
    (step s (.registerBrowser c)).1.screenshotBuffer = ps ∧
    (settleFire (step s (.registerBrowser c)).1 c).length = ps.length + 1 ∧
    (∀ i e, ps[i]? = some e →
      (settleFire (step s (.registerBrowser c)).1 c)[i]? =
        some (Sched.mk (50 * i) (.pacedSend c e))) ∧
    (settleFire (step s (.registerBrowser c)).1 c)[ps.length]? =
      some ⟨50 * ps.length + 100, .clearShots⟩ ∧
    (∀ (t : ServerState) (e : ShotEntry), connOpen t c = true →
      runTask t (.pacedSend c e) = (t, [⟨c, .bufferedShot e⟩], [])) ∧
    (∀ t : ServerState, (runTask t .clearShots).1.screenshotBuffer = []) := by
  have hopen2 : ((alGet s.conns c).getD defaultConnInfo).readyOpen = true := hopen
  have hbe : ps.isEmpty = false := by
    cases ps with
    | nil => exact absurd rfl hne
    | cons a t => rfl
  have hmain :
      (step s (.registerBrowser c)).2.2 = [⟨200, .settleFlush c⟩] ∧
      (step s (.registerBrowser c)).2.1.getLast? =
        some ⟨c, .currentSenders ((step s (.registerBrowser c)).1.senders.map (·.2))⟩ ∧
      (step s (.registerBrowser c)).1.screenshotBuffer = ps := by
    cases hsnd : alGet s.senders c with
    | none =>
      unfold step
      simp only [setConn_senders, hsnd]
      simp [connOpen, connInfo, setConn, alGet_alSet, hopen2, hbuf, hbe]
    | some info =>
      unfold step
      simp only [setConn_senders, hsnd]
      simp [connOpen, connInfo, setConn, alGet_alSet, hopen2, hbuf, hbe]
  refine ⟨hmain.1, hmain.2.1, hmain.2.2, ?_, ?_, ?_, ?_, ?_⟩
  · unfold settleFire
    rw [hmain.2.2]
    simp [pacedTasksFrom_length]
  · intro i e hie
    have hilt : i < ps.length := by
      by_contra hge
      rw [List.getElem?_eq_none (Nat.le_of_not_lt hge)] at hie
      cases hie
    unfold settleFire
    rw [hmain.2.2]
    rw [List.getElem?_append_left (by rw [pacedTasksFrom_length]; exact hilt)]
    rw [pacedTasksFrom_getElem, hie]
    simp
  · unfold settleFire
    rw [hmain.2.2]
    rw [List.getElem?_append_right (by rw [pacedTasksFrom_length])]
    rw [pacedTasksFrom_length]
    simp
  · intro t e hopen3
    simp [runTask, hopen3]
  · intro t
    rfl

/-- Witness for C5 at a concrete one-entry buffer. -/
theorem register_browser_paced_flush_witness :
    (step (⟨[(1, ⟨false, true, true, none⟩)], [], [],
        [⟨"img", some "sid", 7⟩], []⟩ : ServerState) (.registerBrowser 1)).2.2 =
      [⟨200, .settleFlush 1⟩] ∧
    (settleFire (step (⟨[(1, ⟨false, true, true, none⟩)], [], [],
        [⟨"img", some "sid", 7⟩], []⟩ : ServerState) (.registerBrowser 1)).1 1)[0]? =
      some ⟨0, .pacedSend 1 ⟨"img", some "sid", 7⟩⟩ ∧
    (settleFire (step (⟨[(1, ⟨false, true, true, none⟩)], [], [],
        [⟨"img", some "sid", 7⟩], []⟩ : ServerState) (.registerBrowser 1)).1 1)[1]? =
      some ⟨150, .clearShots⟩ := by
  have h := register_browser_paced_flush
    (⟨[(1, ⟨false, true, true, none⟩)], [], [], [⟨"img", some "sid", 7⟩], []⟩ :
      ServerState) 1 [⟨"img", some "sid", 7⟩] rfl (by simp) rfl
  refine ⟨h.1, ?_, ?_⟩
  · have h0 := h.2.2.2.2.1 0 ⟨"img", some "sid", 7⟩ rfl
    simpa using h0
  · have h1 := h.2.2.2.2.2.1
    simpa using h1

/-! ### C2: TTL, sweeps and flushes -/

/-- A run in which a payload buffered at time 100 survives every 10-minute
sweep through t = 10800000 (where its age is still just below TTL), after
which a second connection arrives. -/
def c2Trace : List Event :=
  [Event.connect 0 none, Event.screenshot 0 "img" 100 "aa"] ++
    (List.range 18).map (fun k => Event.sweep ((k + 1) * CLEAN_INTERVAL_MS)) ++
    [Event.connect 1 none]

theorem mem_pacedTasksFrom {c : ConnId} {j : Nat} {l : List ShotEntry}
    {sc : Sched} (h : sc ∈ pacedTasksFrom c j l) :
    ∃ e ∈ l, sc.task = .pacedSend c e := by
  induction l generalizing j with
  | nil => cases h
  | cons e rest ih =>
    rcases List.mem_cons.mp h with h1 | h2
    · exact ⟨e, List.mem_cons_self e rest, by rw [h1]⟩
    · obtain ⟨x, hx, hsc⟩ := ih h2
      exact ⟨x, List.mem_cons_of_mem e hx, hsc⟩

/-- C2 counterexample: after the sweeps of `c2Trace` the entry of age just
under TTL is still buffered; a browser registration at t = 10800150 (before
the next sweep at t = 11400000), when the entry's age 10800050 is at least
TTL, schedules the paced flush, and the flush tasks deliver exactly that
expired entry: the flush performs no TTL check. -/
theorem expired_entry_flushed_counterexample :
    (runTrace init c2Trace).1.screenshotBuffer =
      [⟨"img", some (mkSenderId 100 "aa"), 100⟩] ∧
    (step (runTrace init c2Trace).1 (.registerBrowser 1)).2.2 =
      [⟨200, .settleFlush 1⟩] ∧
    settleFire (step (runTrace init c2Trace).1 (.registerBrowser 1)).1 1 =
      [⟨0, .pacedSend 1 ⟨"img", some (mkSenderId 100 "aa"), 100⟩⟩,
       ⟨150, .clearShots⟩] ∧
    MESSAGE_TTL_MS ≤ 10800150 - 100 ∧ 10800150 < 19 * CLEAN_INTERVAL_MS := by
  refine ⟨?_, ?_, ?_, ?_, ?_⟩ <;> decide

/-- C2 amended: the periodic sweep keeps, in both buffers, exactly the
entries whose age at sweep time is below TTL, so every flush drawn from
the post-sweep state (the paced screenshot flush tasks, and the command
buffer that the timer path flushes) involves only entries that were
younger than TTL at the last sweep; entries expiring between sweeps are
not protected. -/
theorem sweep_bounds_flush_age (s : ServerState) (now : Nat) :
    (step s (.sweep now)).1.screenshotBuffer =
      s.screenshotBuffer.filter
        (fun m => decide (now - m.timestamp < MESSAGE_TTL_MS)) ∧
    (step s (.sweep now)).1.codeBuffer =
      s.codeBuffer.filter
        (fun m => decide (now - m.timestamp < MESSAGE_TTL_MS)) ∧
    (∀ (c : ConnId) (sc : Sched), sc ∈ settleFire (step s (.sweep now)).1 c →
      ∀ e, sc.task = .pacedSend c e → now - e.timestamp < MESSAGE_TTL_MS) ∧
    (∀ m ∈ (step s (.sweep now)).1.codeBuffer,
      now - m.timestamp < MESSAGE_TTL_MS) := by
  refine ⟨rfl, rfl, ?_, ?_⟩
  · intro c sc hsc e hse
    unfold settleFire at hsc
    rcases List.mem_append.mp hsc with h1 | h2
    · obtain ⟨x, hx, htask⟩ := mem_pacedTasksFrom h1
      rw [hse] at htask
      have hex : e = x := by
        cases htask
        rfl
      subst hex
      have hmem : e ∈ (step s (.sweep now)).1.screenshotBuffer := hx
      rw [show (step s (.sweep now)).1.screenshotBuffer =
        s.screenshotBuffer.filter
          (fun m => decide (now - m.timestamp < MESSAGE_TTL_MS)) from rfl] at hmem
      exact of_decide_eq_true (List.mem_filter.mp hmem).2
    · rcases List.mem_singleton.mp h2 with rfl
      cases hse
  · intro m hm
    rw [show (step s (.sweep now)).1.codeBuffer =
      s.codeBuffer.filter
        (fun m => decide (now - m.timestamp < MESSAGE_TTL_MS)) from rfl] at hm
    exact of_decide_eq_true (List.mem_filter.mp hm).2

/-- Witness for the amended C2 at a two-entry state: the expired entry is
swept out, the fresh one survives and its age bound holds. -/
theorem sweep_bounds_flush_age_witness :
    (step (⟨[], [], [], [⟨"old", none, 0⟩, ⟨"new", none, 10800000⟩], []⟩ :
        ServerState) (.sweep 10800000)).1.screenshotBuffer =
      [⟨"new", none, 10800000⟩] ∧
    (10800000 : Nat) - (10800000 : Nat) < MESSAGE_TTL_MS := by
  have h := sweep_bounds_flush_age
    (⟨[], [], [], [⟨"old", none, 0⟩, ⟨"new", none, 10800000⟩], []⟩ : ServerState)
    10800000
  refine ⟨by rw [h.1]; decide, ?_⟩
  · have hmem : Sched.mk 0 (.pacedSend 5 ⟨"new", none, 10800000⟩) ∈
        settleFire (step (⟨[], [], [], [⟨"old", none, 0⟩,
          ⟨"new", none, 10800000⟩], []⟩ : ServerState) (.sweep 10800000)).1 5 := by
      decide
    exact h.2.2.1 5 (Sched.mk 0 (.pacedSend 5 ⟨"new", none, 10800000⟩)) hmem
      ⟨"new", none, 10800000⟩ rfl

/-! ### C1 and C8: registry disjointness and browser stability -/

theorem alErase_of_none {β : Type} {l : List (ConnId × β)} {c : ConnId}
    (h : alGet l c = none) : alErase l c = l := by
  induction l with
  | nil => rfl
  | cons p t ih =>
    obtain ⟨k, b⟩ := p
    by_cases hkc : k = c
    · simp [alGet, hkc] at h
    · simp only [alGet, hkc, if_false] at h
      simp [alErase, hkc, ih h]

/-- Effect of the connection handler on the registries and browser flags. -/
theorem step_connect_effects (s : ServerState) (c : ConnId)
    (sock : Option SockInfo) :
    (step s (.connect c sock)).1.senders = s.senders ∧
    (step s (.connect c sock)).1.browsers = s.browsers ∧
    ∀ d, (connInfo (step s (.connect c sock)).1 d).isBrowser =
      if d = c then false else (connInfo s d).isBrowser := by
  refine ⟨rfl, rfl, fun d => ?_⟩
  show ((alGet (alSet s.conns c _) d).getD defaultConnInfo).isBrowser = _
  rw [alGet_alSet]
  by_cases hdc : d = c <;> simp [hdc, connInfo]

theorem step_timer_inactive (s : ServerState) (c : ConnId) (now : Nat)
    (rnd : String) (h : (connInfo s c).timerActive = false) :
    step s (.timerFire c now rnd) = (s, [], []) := by
  unfold step
  simp [h]

theorem step_timer_skip (s : ServerState) (c : ConnId) (now : Nat)
    (rnd : String) (ht : (connInfo s c).timerActive = true)
    (hg : (connInfo s c).isBrowser = true ∨ (alGet s.senders c).isSome = true) :
    (step s (.timerFire c now rnd)).1.senders = s.senders ∧
    (step s (.timerFire c now rnd)).1.browsers = s.browsers ∧
    ∀ d, (connInfo (step s (.timerFire c now rnd)).1 d).isBrowser =
      (connInfo s d).isBrowser := by
  unfold step
  rcases hg with hb | hs
  · simp only [ht, eq_self_iff_true, if_true, setConn_senders, hb,
      Bool.not_true, Bool.false_and, Bool.false_eq_true, if_false]
    refine ⟨by trivial, by trivial, fun d => ?_⟩
    show ((alGet (alSet s.conns c _) d).getD defaultConnInfo).isBrowser = _
    rw [alGet_alSet]
    by_cases hdc : d = c <;> simp [hdc, connInfo]
    exact hb
  · simp only [ht, eq_self_iff_true, if_true, setConn_senders, hs,
      Bool.not_true, Bool.and_false, Bool.false_eq_true, if_false]
    refine ⟨by trivial, by trivial, fun d => ?_⟩
    show ((alGet (alSet s.conns c _) d).getD defaultConnInfo).isBrowser = _
    rw [alGet_alSet]
    by_cases hdc : d = c <;> simp [hdc, connInfo]

theorem step_timer_register_effects (s : ServerState) (c : ConnId) (now : Nat)
    (rnd : String) (ht : (connInfo s c).timerActive = true)
    (hb : (connInfo s c).isBrowser = false)
    (hs : (alGet s.senders c).isSome = false) :
    (step s (.timerFire c now rnd)).1.senders =
      alSet s.senders c ⟨mkSenderId now rnd, mkAddr (connInfo s c).sock⟩ ∧
    (step s (.timerFire c now rnd)).1.browsers = s.browsers ∧
    ∀ d, (connInfo (step s (.timerFire c now rnd)).1 d).isBrowser =
      (connInfo s d).isBrowser := by
  unfold step
  simp only [ht, eq_self_iff_true, if_true, setConn_senders, hb, hs,
    Bool.not_false, Bool.and_self, if_true]
  refine ⟨?_, by trivial, fun d => ?_⟩
  · show (autoRegister (setConn s c _) c now rnd).1.senders = _
    rw [autoRegister_fst_senders, setConn_senders, connInfo_setConn]
    simp
  · show ((alGet (alSet s.conns c _) d).getD defaultConnInfo).isBrowser = _
    rw [alGet_alSet]
    by_cases hdc : d = c <;> simp [hdc, connInfo]
    exact hb

/-- Effect of the screenshot branch on the registries and flags. -/
theorem step_screenshot_effects (s : ServerState) (c : ConnId) (d : String)
    (now : Nat) (rnd : String) :
    ((alGet s.senders c).isSome = true →
      (step s (.screenshot c d now rnd)).1.senders = s.senders) ∧
    ((alGet s.senders c).isSome = false →
      (step s (.screenshot c d now rnd)).1.senders =
        alSet s.senders c ⟨mkSenderId now rnd, mkAddr (connInfo s c).sock⟩) ∧
    (step s (.screenshot c d now rnd)).1.browsers = s.browsers ∧
    (step s (.screenshot c d now rnd)).1.conns = s.conns := by
  unfold step
  dsimp only
  by_cases hreg : (alGet s.senders c).isSome = true
  · rw [if_pos hreg]
    by_cases hbe : s.browsers.isEmpty = true
    · rw [if_pos hbe]
      exact ⟨fun _ => rfl, fun h => absurd (hreg.symm.trans h) (by decide),
        rfl, rfl⟩
    · rw [if_neg hbe]
      exact ⟨fun _ => rfl, fun h => absurd (hreg.symm.trans h) (by decide),
        rfl, rfl⟩
  · rw [if_neg hreg]
    by_cases hbe : s.browsers.isEmpty = true
    · have hbe2 : (autoRegister s c now rnd).1.browsers.isEmpty = true := hbe
      rw [if_pos hbe2]
      exact ⟨fun h => absurd h hreg,
        fun _ => autoRegister_fst_senders s c now rnd, rfl, rfl⟩
    · have hbe2 : ¬ (autoRegister s c now rnd).1.browsers.isEmpty = true := hbe
      rw [if_neg hbe2]
      exact ⟨fun h => absurd h hreg,
        fun _ => autoRegister_fst_senders s c now rnd, rfl, rfl⟩

/-- The code branch changes neither registries nor connection records. -/
theorem step_code_effects (s : ServerState) (c : ConnId) (raw d : String)
    (now : Nat) :
    (step s (.code c raw d now)).1.senders = s.senders ∧
    (step s (.code c raw d now)).1.browsers = s.browsers ∧
    (step s (.code c raw d now)).1.conns = s.conns := by
  unfold step
  by_cases hse : s.senders.isEmpty <;> simp [hse]

/-- Effect of the register_browser branch on the registries and flags. -/
theorem step_register_browser_effects (s : ServerState) (c : ConnId) :
    (step s (.registerBrowser c)).1.senders = alErase s.senders c ∧
    (step s (.registerBrowser c)).1.browsers = addSet s.browsers c ∧
    ∀ d, (connInfo (step s (.registerBrowser c)).1 d).isBrowser =
      if d = c then true else (connInfo s d).isBrowser := by
  cases hsnd : alGet s.senders c with
  | none =>
    unfold step
    simp only [setConn_senders, hsnd]
    refine ⟨?_, ?_, fun d => ?_⟩
    · split
      all_goals exact (alErase_of_none hsnd).symm
    · split
      all_goals rfl
    · split
      all_goals
        show ((alGet (alSet s.conns c _) d).getD defaultConnInfo).isBrowser = _
        rw [alGet_alSet]
        by_cases hdc : d = c <;> simp [hdc, connInfo]
  | some info =>
    unfold step
    simp only [setConn_senders, hsnd]
    refine ⟨?_, ?_, fun d => ?_⟩
    · split
      all_goals rfl
    · split
      all_goals rfl
    · split
      all_goals
        show ((alGet (alSet s.conns c _) d).getD defaultConnInfo).isBrowser = _
        rw [alGet_alSet]
        by_cases hdc : d = c <;> simp [hdc, connInfo]

/-- Effect of the close handler on the registries and flags. -/
theorem step_close_effects (s : ServerState) (c : ConnId) :
    (step s (.close c)).1.senders = alErase s.senders c ∧
    (step s (.close c)).1.browsers = delSet s.browsers c ∧
    ∀ d, (connInfo (step s (.close c)).1 d).isBrowser =
      (connInfo s d).isBrowser := by
  cases hsnd : alGet s.senders c with
  | none =>
    unfold step
    simp only [setConn_senders, hsnd]
    refine ⟨(alErase_of_none hsnd).symm, by trivial, fun d => ?_⟩
    show ((alGet (alSet s.conns c _) d).getD defaultConnInfo).isBrowser = _
    rw [alGet_alSet]
    by_cases hdc : d = c <;> simp [hdc, connInfo]
  | some info =>
    unfold step
    simp only [setConn_senders, hsnd]
    refine ⟨by trivial, by trivial, fun d => ?_⟩
    show ((alGet (alSet s.conns c _) d).getD defaultConnInfo).isBrowser = _
    rw [alGet_alSet]
    by_cases hdc : d = c <;> simp [hdc, connInfo]

/-- Sweeps and flush tasks leave registries and connection records alone. -/
theorem step_sweep_fire_effects (s : ServerState) :
    (∀ now, (step s (.sweep now)).1.senders = s.senders ∧
      (step s (.sweep now)).1.browsers = s.browsers ∧
      (step s (.sweep now)).1.conns = s.conns) ∧
    (∀ t, (step s (.fire t)).1.senders = s.senders ∧
      (step s (.fire t)).1.browsers = s.browsers ∧
      (step s (.fire t)).1.conns = s.conns) := by
  refine ⟨fun now => ⟨rfl, rfl, rfl⟩, fun t => ?_⟩
  cases t with
  | settleFlush c => exact ⟨rfl, rfl, rfl⟩
  | pacedSend c e => exact ⟨rfl, rfl, rfl⟩
  | clearShots => exact ⟨rfl, rfl, rfl⟩

/-- Disjointness of the two registries. -/
def RegOk (s : ServerState) : Prop :=
  ∀ c : ConnId, ¬((alGet s.senders c).isSome = true ∧ inSet s.browsers c = true)

/-- Every member of the browser set carries the browser flag (true of all
states the server actually builds: a connection enters `browserClients`
only in the register_browser branch, right after `ws._isBrowser = true`). -/
def BrowserFlagOk (s : ServerState) : Prop :=
  ∀ c : ConnId, inSet s.browsers c = true → (connInfo s c).isBrowser = true

/-- The inductive invariant for C1. -/
def Inv (s : ServerState) : Prop := RegOk s ∧ BrowserFlagOk s

/-- Admissible environment events: a connect event carries a fresh handle
(every `ws` object is new), and a producer payload does not come from a
connection currently in the browser set.  The second condition is the
amendment C1 needs: the screenshot branch auto-registers without checking
`ws._isBrowser`, so a browser that emits a producer payload enters the
sender registry while staying in the browser set. -/
def okEvent (s : ServerState) : Event → Prop
  | .connect c _ => alGet s.conns c = none
  | .screenshot c _ _ _ => inSet s.browsers c = false
  | _ => True

/-- A run all of whose events are admissible at the state they hit. -/
def goodTrace : ServerState → List Event → Prop
  | _, [] => True
  | s, e :: es => okEvent s e ∧ goodTrace (step s e).1 es

theorem inv_step (s : ServerState) (e : Event) (h : Inv s)
    (hok : okEvent s e) : Inv (step s e).1 := by
  obtain ⟨hreg, hflag⟩ := h
  cases e with
  | connect c sock =>
    obtain ⟨h1, h2, hf⟩ := step_connect_effects s c sock
    constructor
    · intro d hd
      rw [h1, h2] at hd
      exact hreg d hd
    · intro d hd
      rw [h2] at hd
      rw [hf d]
      by_cases hdc : d = c
      · subst hdc
        have hfl := hflag d hd
        have hok2 : alGet s.conns d = none := hok
        unfold connInfo at hfl
        rw [hok2] at hfl
        simp [defaultConnInfo] at hfl
      · rw [if_neg hdc]
        exact hflag d hd
  | timerFire c now rnd =>
    by_cases hta : (connInfo s c).timerActive = true
    · by_cases hbr : (connInfo s c).isBrowser = true
      · obtain ⟨h1, h2, hf⟩ := step_timer_skip s c now rnd hta (Or.inl hbr)
        exact ⟨fun d hd => hreg d (by rwa [h1, h2] at hd),
               fun d hd => by rw [hf d]; exact hflag d (by rwa [h2] at hd)⟩
      · by_cases hsr : (alGet s.senders c).isSome = true
        · obtain ⟨h1, h2, hf⟩ := step_timer_skip s c now rnd hta (Or.inr hsr)
          exact ⟨fun d hd => hreg d (by rwa [h1, h2] at hd),
                 fun d hd => by rw [hf d]; exact hflag d (by rwa [h2] at hd)⟩
        · have hbr2 : (connInfo s c).isBrowser = false :=
            Bool.eq_false_iff.mpr hbr
          have hsr2 : (alGet s.senders c).isSome = false :=
            Bool.eq_false_iff.mpr hsr
          obtain ⟨h1, h2, hf⟩ := step_timer_register_effects s c now rnd hta hbr2 hsr2
          constructor
          · intro d hd
            rw [h1, h2, alGet_alSet] at hd
            by_cases hdc : d = c
            · subst hdc
              have hfl := hflag d hd.2
              rw [hfl] at hbr2
              cases hbr2
            · rw [if_neg hdc] at hd
              exact hreg d hd
          · intro d hd
            rw [h2] at hd
            rw [hf d]
            exact hflag d hd
    · have hta2 : (connInfo s c).timerActive = false :=
        Bool.eq_false_iff.mpr hta
      rw [step_timer_inactive s c now rnd hta2]
      exact ⟨hreg, hflag⟩
  | screenshot c d0 now rnd =>
    obtain ⟨hp, hn, h2, h3⟩ := step_screenshot_effects s c d0 now rnd
    have hok2 : inSet s.browsers c = false := hok
    constructor
    · intro d hd
      rw [h2] at hd
      by_cases hr : (alGet s.senders c).isSome = true
      · rw [hp hr] at hd
        exact hreg d hd
      · have hr2 : (alGet s.senders c).isSome = false :=
          Bool.eq_false_iff.mpr hr
        rw [hn hr2, alGet_alSet] at hd
        by_cases hdc : d = c
        · subst hdc
          rw [hok2] at hd
          exact Bool.false_ne_true hd.2
        · rw [if_neg hdc] at hd
          exact hreg d hd
    · intro d hd
      rw [h2] at hd
      have hci : connInfo (step s (.screenshot c d0 now rnd)).1 d = connInfo s d := by
        unfold connInfo
        rw [h3]
      rw [hci]
      exact hflag d hd
  | code c raw d0 now =>
    obtain ⟨h1, h2, h3⟩ := step_code_effects s c raw d0 now
    constructor
    · intro d hd
      rw [h1, h2] at hd
      exact hreg d hd
    · intro d hd
      rw [h2] at hd
      have hci : connInfo (step s (.code c raw d0 now)).1 d = connInfo s d := by
        unfold connInfo
        rw [h3]
      rw [hci]
      exact hflag d hd
  | registerBrowser c =>
    obtain ⟨h1, h2, hf⟩ := step_register_browser_effects s c
    constructor
    · intro d hd
      rw [h1, h2, alGet_alErase] at hd
      by_cases hdc : d = c
      · rw [if_pos hdc] at hd
        exact Bool.false_ne_true hd.1
      · rw [if_neg hdc, inSet_addSet] at hd
        have hbc : (d == c) = false := beq_eq_false_iff_ne.mpr hdc
        rw [hbc, Bool.or_false] at hd
        exact hreg d hd
    · intro d hd
      rw [hf d]
      by_cases hdc : d = c
      · rw [if_pos hdc]
      · rw [if_neg hdc]
        rw [h2, inSet_addSet] at hd
        have hbc : (d == c) = false := beq_eq_false_iff_ne.mpr hdc
        rw [hbc, Bool.or_false] at hd
        exact hflag d hd
  | close c =>
    obtain ⟨h1, h2, hf⟩ := step_close_effects s c
    constructor
    · intro d hd
      rw [h1, h2, alGet_alErase, inSet_delSet] at hd
      by_cases hdc : d = c
      · rw [if_pos hdc] at hd
        exact Bool.false_ne_true hd.1
      · rw [if_neg hdc] at hd
        have hbc : (d == c) = false := beq_eq_false_iff_ne.mpr hdc
        rw [hbc, Bool.not_false, Bool.and_true] at hd
        exact hreg d hd
    · intro d hd
      rw [hf d]
      rw [h2, inSet_delSet] at hd
      have hd2 := hd
      rw [Bool.and_eq_true] at hd2
      exact hflag d hd2.1
  | sweep now =>
    obtain ⟨hsw, _⟩ := step_sweep_fire_effects s
    obtain ⟨h1, h2, h3⟩ := hsw now
    constructor
    · intro d hd
      rw [h1, h2] at hd
      exact hreg d hd
    · intro d hd
      rw [h2] at hd
      have hci : connInfo (step s (.sweep now)).1 d = connInfo s d := by
        unfold connInfo
        rw [h3]
      rw [hci]
      exact hflag d hd
  | fire t =>
    obtain ⟨_, hfi⟩ := step_sweep_fire_effects s
    obtain ⟨h1, h2, h3⟩ := hfi t
    constructor
    · intro d hd
      rw [h1, h2] at hd
      exact hreg d hd
    · intro d hd
      rw [h2] at hd
      have hci : connInfo (step s (.fire t)).1 d = connInfo s d := by
        unfold connInfo
        rw [h3]
      rw [hci]
      exact hflag d hd

theorem inv_run (s : ServerState) (es : List Event) (h : Inv s)
    (hg : goodTrace s es) : Inv (runTrace s es).1 := by
  induction es generalizing s with
  | nil => exact h
  | cons e es ih => exact ih (step s e).1 (inv_step s e h hg.1) hg.2

theorem inv_init : Inv init := by
  constructor
  · intro c hc
    exact Bool.false_ne_true hc.1
  · intro c hc
    exact absurd hc Bool.false_ne_true

/-- C1 counterexample: a connection that registers as a browser and then
sends a producer payload is auto-registered as a sender while remaining
in the browser set, so it is in both registry structures at once. -/
theorem registry_overlap_counterexample :
    (alGet (runTrace init [.connect 0 none, .registerBrowser 0,
      .screenshot 0 "d" 7 "r"]).1.senders 0).isSome = true ∧
    inSet (runTrace init [.connect 0 none, .registerBrowser 0,
      .screenshot 0 "d" 7 "r"]).1.browsers 0 = true := by
  decide

/-- C1 (amended): along any run of admissible events (fresh handles on
connect, and no producer payload from a connection currently in the
browser set) from a state satisfying the invariant, each connection is in
at most one of the sender registry and the browser set; and the events
outside classification handling and close handling (connect, consumer
command, sweep, flush task) change neither registry. -/
theorem registry_disjoint (s : ServerState) (es : List Event)
    (h : Inv s) (hg : goodTrace s es) :
    (∀ c, ¬((alGet (runTrace s es).1.senders c).isSome = true ∧
      inSet (runTrace s es).1.browsers c = true)) ∧
    (∀ (u : ServerState) (c : ConnId) (sock : Option SockInfo)
      (raw d0 : String) (now : Nat) (t : Task),
      (step u (.connect c sock)).1.senders = u.senders ∧
      (step u (.connect c sock)).1.browsers = u.browsers ∧
      (step u (.code c raw d0 now)).1.senders = u.senders ∧
      (step u (.code c raw d0 now)).1.browsers = u.browsers ∧
      (step u (.sweep now)).1.senders = u.senders ∧
      (step u (.sweep now)).1.browsers = u.browsers ∧
      (step u (.fire t)).1.senders = u.senders ∧
      (step u (.fire t)).1.browsers = u.browsers) := by
  refine ⟨(inv_run s es h hg).1, fun u c sock raw d0 now t => ?_⟩
  obtain ⟨hc1, hc2, _⟩ := step_connect_effects u c sock
  obtain ⟨hd1, hd2, _⟩ := step_code_effects u c raw d0 now
  obtain ⟨hsw, hfi⟩ := step_sweep_fire_effects u
  obtain ⟨hs1, hs2, _⟩ := hsw now
  obtain ⟨ht1, ht2, _⟩ := hfi t
  exact ⟨hc1, hc2, hd1, hd2, hs1, hs2, ht1, ht2⟩

/-- Witness for the amended C1 on a concrete two-event admissible run. -/
theorem registry_disjoint_witness :
    ¬((alGet (runTrace init [.connect 0 none, .registerBrowser 0]).1.senders
        0).isSome = true ∧
      inSet (runTrace init [.connect 0 none,
        .registerBrowser 0]).1.browsers 0 = true) :=
  (registry_disjoint init [.connect 0 none, .registerBrowser 0] inv_init
    ⟨rfl, trivial, trivial⟩).1 0

/-! ### C8: stability of the browser classification -/

/-- Events that never touch connection `c` from the outside: no producer
payload from `c` and no fresh connect reusing handle `c`. -/
def avoids (c : ConnId) : List Event → Prop
  | [] => True
  | e :: es =>
    (∀ d0 now rnd, e ≠ .screenshot c d0 now rnd) ∧
    (∀ sock, e ≠ .connect c sock) ∧ avoids c es

theorem browser_flag_puts_sender_out (s : ServerState) (c : ConnId)
    (es : List Event)
    (hflag : (connInfo s c).isBrowser = true)
    (hns : (alGet s.senders c).isSome = false)
    (hav : avoids c es) :
    (alGet (runTrace s es).1.senders c).isSome = false ∧
    (connInfo (runTrace s es).1 c).isBrowser = true := by
  induction es generalizing s with
  | nil => exact ⟨hns, hflag⟩
  | cons e es ih =>
    obtain ⟨hne1, hne2, hav2⟩ := hav
    have hstep : (alGet (step s e).1.senders c).isSome = false ∧
        (connInfo (step s e).1 c).isBrowser = true := by
      cases e with
      | connect c0 sock =>
        have hc0 : ¬ c = c0 := fun h => hne2 sock (by rw [h])
        obtain ⟨h1, h2, hf⟩ := step_connect_effects s c0 sock
        refine ⟨by rw [h1]; exact hns, ?_⟩
        rw [hf c, if_neg hc0]
        exact hflag
      | timerFire c0 now rnd =>
        by_cases hta : (connInfo s c0).timerActive = true
        · by_cases hbr : (connInfo s c0).isBrowser = true
          · obtain ⟨h1, h2, hf⟩ := step_timer_skip s c0 now rnd hta (Or.inl hbr)
            exact ⟨by rw [h1]; exact hns, by rw [hf c]; exact hflag⟩
          · by_cases hsr : (alGet s.senders c0).isSome = true
            · obtain ⟨h1, h2, hf⟩ := step_timer_skip s c0 now rnd hta (Or.inr hsr)
              exact ⟨by rw [h1]; exact hns, by rw [hf c]; exact hflag⟩
            · have hbr2 : (connInfo s c0).isBrowser = false :=
                Bool.eq_false_iff.mpr hbr
              have hsr2 : (alGet s.senders c0).isSome = false :=
                Bool.eq_false_iff.mpr hsr
              obtain ⟨h1, h2, hf⟩ :=
                step_timer_register_effects s c0 now rnd hta hbr2 hsr2
              have hc0 : ¬ c = c0 := by
                intro h
                rw [← h, hflag] at hbr2
                cases hbr2
              refine ⟨?_, by rw [hf c]; exact hflag⟩
              rw [h1, alGet_alSet, if_neg hc0]
              exact hns
        · have hta2 : (connInfo s c0).timerActive = false :=
            Bool.eq_false_iff.mpr hta
          rw [step_timer_inactive s c0 now rnd hta2]
          exact ⟨hns, hflag⟩
      | screenshot c0 d0 now rnd =>
        have hc0 : ¬ c = c0 := fun h => hne1 d0 now rnd (by rw [h])
        obtain ⟨hp, hn, h2, h3⟩ := step_screenshot_effects s c0 d0 now rnd
        refine ⟨?_, ?_⟩
        · by_cases hr : (alGet s.senders c0).isSome = true
          · rw [hp hr]; exact hns
          · have hr2 : (alGet s.senders c0).isSome = false :=
              Bool.eq_false_iff.mpr hr
            rw [hn hr2, alGet_alSet, if_neg hc0]
            exact hns
        · have hci : connInfo (step s (.screenshot c0 d0 now rnd)).1 c =
              connInfo s c := by
            unfold connInfo
            rw [h3]
          rw [hci]
          exact hflag
      | code c0 raw d0 now =>
        obtain ⟨h1, h2, h3⟩ := step_code_effects s c0 raw d0 now
        refine ⟨by rw [h1]; exact hns, ?_⟩
        have hci : connInfo (step s (.code c0 raw d0 now)).1 c = connInfo s c := by
          unfold connInfo
          rw [h3]
        rw [hci]
        exact hflag
      | registerBrowser c0 =>
        obtain ⟨h1, h2, hf⟩ := step_register_browser_effects s c0
        constructor
        · rw [h1, alGet_alErase]
          by_cases hcc : c = c0
          · rw [if_pos hcc]
            rfl
          · rw [if_neg hcc]
            exact hns
        · rw [hf c]
          by_cases hcc : c = c0
          · rw [if_pos hcc]
          · rw [if_neg hcc]
            exact hflag
      | close c0 =>
        obtain ⟨h1, h2, hf⟩ := step_close_effects s c0
        constructor
        · rw [h1, alGet_alErase]
          by_cases hcc : c = c0
          · rw [if_pos hcc]
            rfl
          · rw [if_neg hcc]
            exact hns
        · rw [hf c]
          exact hflag
      | sweep now =>
        obtain ⟨hsw, _⟩ := step_sweep_fire_effects s
        obtain ⟨h1, h2, h3⟩ := hsw now
        refine ⟨by rw [h1]; exact hns, ?_⟩
        have hci : connInfo (step s (.sweep now)).1 c = connInfo s c := by
          unfold connInfo
          rw [h3]
        rw [hci]
        exact hflag
      | fire t =>
        obtain ⟨_, hfi⟩ := step_sweep_fire_effects s
        obtain ⟨h1, h2, h3⟩ := hfi t
        refine ⟨by rw [h1]; exact hns, ?_⟩
        have hci : connInfo (step s (.fire t)).1 c = connInfo s c := by
          unfold connInfo
          rw [h3]
        rw [hci]
        exact hflag
    exact ih (step s e).1 hstep.2 hstep.1 hav2

/-- C8 counterexample: a connection that has sent register_browser (flag
set, not a sender) is nevertheless added to the sender registry by the
automatic inferred-sender classification of the screenshot branch when it
later sends a producer payload. -/
theorem browser_then_payload_sender_counterexample :
    (connInfo (runTrace init [.connect 0 none,
      .registerBrowser 0]).1 0).isBrowser = true ∧
    (alGet (runTrace init [.connect 0 none,
      .registerBrowser 0]).1.senders 0).isSome = false ∧
    (alGet (runTrace init [.connect 0 none, .registerBrowser 0,
      .screenshot 0 "d" 7 "r"]).1.senders 0).isSome = true := by
  decide

/-- C8 (amended): a connection that has sent register_browser (so its
browser flag is set and it is outside the sender registry) is never added
to the sender registry by the classification-timeout path: its own timer
firing leaves the registry unchanged in any state where the flag is set,
and along any further run containing no producer payload from it (and no
handle reuse) it stays outside the sender registry. -/
theorem register_browser_never_timer_sender (s : ServerState) (c : ConnId)
    (es : List Event)
    (hflag : (connInfo s c).isBrowser = true)
    (hns : (alGet s.senders c).isSome = false)
    (hav : avoids c es) :
    (alGet (runTrace s es).1.senders c).isSome = false ∧
    (∀ (u : ServerState) (now : Nat) (rnd : String),
      (connInfo u c).isBrowser = true →
      (step u (.timerFire c now rnd)).1.senders = u.senders) := by
  refine ⟨(browser_flag_puts_sender_out s c es hflag hns hav).1,
    fun u now rnd hu => ?_⟩
  by_cases hta : (connInfo u c).timerActive = true
  · exact (step_timer_skip u c now rnd hta (Or.inl hu)).1
  · have hta2 : (connInfo u c).timerActive = false :=
      Bool.eq_false_iff.mpr hta
    rw [step_timer_inactive u c now rnd hta2]

/-- Witness for the amended C8: after an explicit browser registration the
timer fires and a command is relayed; the connection never enters the
sender registry. -/
theorem register_browser_never_timer_sender_witness :
    (alGet (runTrace (runTrace init [.connect 0 none, .registerBrowser 0]).1
      [.timerFire 0 5 "x", .code 0 "raw" "y" 9]).1.senders 0).isSome = false := by
  have h := register_browser_never_timer_sender
    (runTrace init [.connect 0 none, .registerBrowser 0]).1 0
    [.timerFire 0 5 "x", .code 0 "raw" "y" 9]
    (by decide) (by decide)
    ⟨fun d0 now rnd h => Event.noConfusion h, fun sock h => Event.noConfusion h,
     fun d0 now rnd h => Event.noConfusion h, fun sock h => Event.noConfusion h,
     trivial⟩
  exact h.1

end Relay
